import Mathlib

/-!
Verification of the UnderDoc python SDK (`underdoc` package) against its
natural-language specification.

The development shallowly embeds the client code of
`src/underdoc/underdoc_client.py` and the data model of
`src/underdoc/model.py`.  Effectful python code (file reads, HTTP, S3) is
embedded by passing an explicit environment `Env` of oracles describing the
outside world, and each embedded function additionally returns the list of
I/O effects it performed.  Python exceptions are embedded with `Except`;
a python function that can also return `None` yields `Except PyError (Option _)`.
-/

namespace UnderDoc

/-- Image format enum from `model.py` (`ImageFormat`). -/
inductive ImageFormat where
  | jpeg
  | png
deriving DecidableEq, Repr

/-- Expense image type enum from `model.py` (`ExpenseImageType`). -/
inductive ExpenseImageType where
  | Receipt
  | Invoice
  | Others
deriving DecidableEq, Repr

/-- Line item from `model.py` (`ExpenseItem`).  Python `float` fields are
modelled as exact rationals (finite JSON numeric values). -/
structure ExpenseItem where
  name : Option String
  quantity : Option ℚ
  unit_price : Option ℚ
  subtotal : Option ℚ
deriving DecidableEq, Repr

/-- Expense record from `model.py` (`Expense`). -/
structure Expense where
  shop_name : Option String
  shop_address : Option String
  date : Option String
  expense_category : Option String
  currency : Option String
  total_amount : Option ℚ
  items : Option (List ExpenseItem)
deriving DecidableEq, Repr

/-- Extracted data from `model.py` (`ExpenseData`). -/
structure ExpenseData where
  image_type : ExpenseImageType
  expense : Option Expense
deriving DecidableEq, Repr

/-- Single-extraction response from `model.py` (`ExpenseExtractionResponse`). -/
structure ExpenseExtractionResponse where
  receipt_data : ExpenseData
deriving DecidableEq, Repr

/-- Per-item batch outcome from `model.py` (`ExpenseDataWithSource`). -/
structure ExpenseDataWithSource where
  source_file_name : String
  expense_data : ExpenseData
deriving DecidableEq, Repr

/-- Batch report from `model.py` (`ExpenseExtractionBatchResponse`). -/
structure ExpenseExtractionBatchResponse where
  expense_data_list : List ExpenseDataWithSource
deriving DecidableEq, Repr

/-- Batch mode enum from `model.py` (`BatchExecutionMode`). -/
inductive BatchExecutionMode where
  | Sequential
  | Parallel
deriving DecidableEq, Repr

/-- Modelled from the spec: the object-store locator (§3, "container + key").
`S3Object` is imported by `underdoc_client.py` from `.model` and used with
fields `bucket_name` and `object_key`, but its class definition is absent
from `src/underdoc/model.py`. -/
structure S3Object where
  bucket_name : String
  object_key : String
deriving DecidableEq, Repr

/-- Raw image bytes. -/
abbrev Bytes := List Nat

/-- Extraction request from `model.py` (`ExpenseExtractionRequest`).
`image_data` holds the image payload; the base64 text encoding applied by
the client before sending is injective and never inspected by any claim,
so the payload is kept as the raw byte list. -/
structure ExpenseExtractionRequest where
  image_format : ImageFormat
  image_data : Bytes
deriving DecidableEq, Repr

/-! ## Format inference (`Client._get_image_format`) -/

/-- `file_path.split(".")[-1]` of python: the suffix of the string after the
last `'.'`, the whole string when it has no `'.'` (python's `split` then
returns the one-element list holding the whole string). -/
def lastExtension (s : String) : String :=
  ⟨(s.data.reverse.takeWhile (fun c => c ≠ '.')).reverse⟩

/-- Embeds `Client._get_image_format` (underdoc_client.py lines 44-63).
The extension comparison of the source is exact: no lowercasing is applied
to `file_extension` before comparing with `'jpg'`, `'jpeg'`, `'png'`.
`Except.error` embeds the raised `ValueError`. -/
def get_image_format (file_path : String) : Except String ImageFormat :=
  let file_extension := lastExtension file_path
  if file_extension = "jpg" ∨ file_extension = "jpeg" then
    .ok ImageFormat.jpeg
  else if file_extension = "png" then
    .ok ImageFormat.png
  else
    .error ("Unsupported file format: " ++ file_extension)

/-! ## The effect / error model of the client -/

/-- The I/O effects the client can perform, in the order performed. -/
inductive Effect where
  | openFile (name : String)
  | httpGet (url : String)
  | s3GetObject (bucket key : String)
  | s3ListBucket (bucket : String)
  | globMatch (pattern : String)
  | postExtract
deriving DecidableEq, Repr

/-- Python exceptions the embedded client code can raise.
`underDoc` is `UnderDocException`, `validation` is pydantic's
`ValidationError` (raised by `model_validate_json` on a nonconforming body),
`valueError` is `ValueError`, `nameError` is `NameError`, `keyError` is
`KeyError` (raised on indexing a dict key that is absent). -/
inductive PyError where
  | underDoc (msg : String)
  | validation (body : String)
  | valueError (msg : String)
  | nameError (msg : String)
  | keyError (key : String)
deriving DecidableEq, Repr

/-- A response of the remote extraction service to the POST of
`expense_image_extract`: an HTTP status code and the raw body text. -/
structure HttpResponse where
  status_code : Nat
  text : String
deriving DecidableEq, Repr

/-- The outside world the client interacts with, as oracles.
`none` from `readFile`, `fetchUrl` or `s3Get` is a failed read (the python
exception those libraries raise); `validateBody` is pydantic's
`ExpenseExtractionResponse.model_validate_json`, `some` exactly when the
body conforms to the response schema; `glob` is `glob.glob`;
`s3ListObjects` is the S3 `list_objects_v2` response: `some keys` when the
response dict carries a `Contents` entry holding objects with those keys,
`none` when the response omits the `Contents` key, as it does for an empty
bucket. -/
structure Env where
  readFile : String → Option Bytes
  fetchUrl : String → Option Bytes
  s3Get : String → String → Option Bytes
  postExtract : ExpenseExtractionRequest → HttpResponse
  validateBody : String → Option ExpenseData
  glob : String → List String
  s3ListObjects : String → Option (List String)

/-- Python truthiness of an optional string argument: `None` and `""` are
falsy. -/
def truthyStr : Option String → Bool
  | none => false
  | some s => !s.isEmpty

/-! ## Request builders (`Client._get_request_from_*`) -/

/-- Embeds `Client._get_request_from_file_name` (lines 65-100).  The file is
opened first; `_get_image_format` runs inside the same `try`, so both a read
failure and a `ValueError` for a bad extension are caught by the blanket
`except Exception` and turned into a `None` result.  The `open` attempt is
recorded as an effect in every case. -/
def get_request_from_file_name (env : Env) (file_name : String) :
    Option ExpenseExtractionRequest × List Effect :=
  match env.readFile file_name with
  | none => (none, [Effect.openFile file_name])
  | some image_data =>
    match get_image_format file_name with
    | .error _ => (none, [Effect.openFile file_name])
    | .ok image_format =>
      (some ⟨image_format, image_data⟩, [Effect.openFile file_name])

/-- Embeds `Client._get_request_from_image_url` (lines 102-143).  The format
check runs before the GET, so a bad extension performs no I/O; every
exception (`ValueError` included) is caught and turned into a `None`
result. -/
def get_request_from_image_url (env : Env) (image_url : String) :
    Option ExpenseExtractionRequest × List Effect :=
  match get_image_format image_url with
  | .error _ => (none, [])
  | .ok image_format =>
    match env.fetchUrl image_url with
    | none => (none, [Effect.httpGet image_url])
    | some image_data =>
      (some ⟨image_format, image_data⟩, [Effect.httpGet image_url])

/-- Embeds `Client._get_request_from_s3_object` (lines 145-167).  The format
check on the object key runs before `get_object`; every exception is caught
and turned into a `None` result. -/
def get_request_from_s3_object (env : Env) (s3_object : S3Object) :
    Option ExpenseExtractionRequest × List Effect :=
  match get_image_format s3_object.object_key with
  | .error _ => (none, [])
  | .ok image_format =>
    match env.s3Get s3_object.bucket_name s3_object.object_key with
    | none => (none, [Effect.s3GetObject s3_object.bucket_name s3_object.object_key])
    | some image_data =>
      (some ⟨image_format, image_data⟩,
       [Effect.s3GetObject s3_object.bucket_name s3_object.object_key])

/-! ## Single-item extraction (`Client.expense_image_extract`) -/

/-- The `if file_name: / elif image_url: / elif s3_object:` dispatch shared
by `expense_image_extract` and `_expense_image_extract_parallel`
(lines 192-210 and 246-267).  The branches test python truthiness, so an
empty-string argument falls through; when every branch is skipped the local
`request` is never assigned and `if not request:` raises a `NameError`.
The helpers swallow their own exceptions, so the `except ValueError` arms
of the source are unreachable here. -/
def buildRequest (env : Env) (file_name image_url : Option String)
    (s3_object : Option S3Object) :
    Except PyError (Option ExpenseExtractionRequest × List Effect) :=
  if truthyStr file_name then
    .ok (get_request_from_file_name env (file_name.getD ""))
  else if truthyStr image_url then
    .ok (get_request_from_image_url env (image_url.getD ""))
  else
    match s3_object with
    | some o => .ok (get_request_from_s3_object env o)
    | none => .error (.nameError "name 'request' is not defined")

/-- The POST to `{endpoint}/expenses/extract` and response handling shared
by both extraction entry points (lines 212-227 and 269-284): a non-200
status raises `UnderDocException(response.text)`; on 200 the body is parsed
with `model_validate_json`, which raises a pydantic `ValidationError` when
the body does not conform. -/
def postAndParse (env : Env) (req : ExpenseExtractionRequest) :
    Except PyError ExpenseExtractionResponse :=
  let response := env.postExtract req
  if response.status_code = 200 then
    match env.validateBody response.text with
    | some d => .ok ⟨d⟩
    | none => .error (.validation response.text)
  else
    .error (.underDoc response.text)

/-- Embeds `Client.expense_image_extract` (lines 176-227).  Returns the
python return value (`none` embeds python `None`, produced when the request
builder swallowed an error) or the raised exception, together with the I/O
effects performed. -/
def expense_image_extract (env : Env) (file_name image_url : Option String)
    (s3_object : Option S3Object) :
    Except PyError (Option ExpenseExtractionResponse) × List Effect :=
  if file_name.isNone && image_url.isNone && s3_object.isNone then
    (.error (.valueError
      "Either file_name or image_url or s3_object must be provided."), [])
  else
    match buildRequest env file_name image_url s3_object with
    | .error e => (.error e, [])
    | .ok (none, tr) => (.ok none, tr)
    | .ok (some req, tr) =>
      match postAndParse env req with
      | .error e => (.error e, tr ++ [Effect.postExtract])
      | .ok resp => (.ok (some resp), tr ++ [Effect.postExtract])

/-- Embeds `Client._expense_image_extract_parallel` (lines 229-284): the
worker task body of Parallel batch mode.  It differs from
`expense_image_extract` in also recording the source reference
(`file_name`, `image_url`, or the S3 object key) and returning the pair
`(source_file_name, response)`. -/
def expense_image_extract_parallel (env : Env)
    (file_name image_url : Option String) (s3_object : Option S3Object) :
    Except PyError (Option (String × ExpenseExtractionResponse)) × List Effect :=
  if file_name.isNone && image_url.isNone && s3_object.isNone then
    (.error (.valueError
      "Either file_name or image_url or s3_object must be provided."), [])
  else
    let source_file_name :=
      if truthyStr file_name then file_name.getD ""
      else if truthyStr image_url then image_url.getD ""
      else match s3_object with
           | some o => o.object_key
           | none => ""
    match buildRequest env file_name image_url s3_object with
    | .error e => (.error e, [])
    | .ok (none, tr) => (.ok none, tr)
    | .ok (some req, tr) =>
      match postAndParse env req with
      | .error e => (.error e, tr ++ [Effect.postExtract])
      | .ok resp => (.ok (some (source_file_name, resp)), tr ++ [Effect.postExtract])

/-! ## Batch extraction (`Client.expense_image_batch_extract`) -/

/-- `ray.get` on the list of futures (line 331): waits for all tasks and
returns their values in submission order; when a task raised, the exception
propagates to the caller of `ray.get` (modelled as the first raising task in
submission order) — there is no per-task catching in the source. -/
def rayGet {α : Type} : List (Except PyError α) → Except PyError (List α)
  | [] => .ok []
  | t :: ts =>
    match t with
    | .error e => .error e
    | .ok a =>
      match rayGet ts with
      | .error e => .error e
      | .ok rest => .ok (a :: rest)

/-- The Sequential loop of `expense_image_batch_extract` over glob results
(lines 340-349, `file_name_pattern` branch): each item goes through
`expense_image_extract(file_name=...)`; an exception propagates and aborts
the batch; a `None` response is skipped by `if response:`; a response is
appended with the file name as source. -/
def seqExtractFiles (env : Env) : List String →
    Except PyError (List ExpenseDataWithSource)
  | [] => .ok []
  | f :: fs =>
    match (expense_image_extract env (some f) none none).1 with
    | .error e => .error e
    | .ok none => seqExtractFiles env fs
    | .ok (some resp) =>
      match seqExtractFiles env fs with
      | .error e => .error e
      | .ok rest => .ok (⟨f, resp.receipt_data⟩ :: rest)

/-- The Sequential loop of `expense_image_batch_extract` over S3 keys
(lines 340-349, `s3_bucket_name` branch): each key goes through
`expense_image_extract(s3_object=S3Object(bucket, key))`. -/
def seqExtractS3 (env : Env) (bucket : String) : List String →
    Except PyError (List ExpenseDataWithSource)
  | [] => .ok []
  | k :: ks =>
    match (expense_image_extract env none none (some ⟨bucket, k⟩)).1 with
    | .error e => .error e
    | .ok none => seqExtractS3 env bucket ks
    | .ok (some resp) =>
      match seqExtractS3 env bucket ks with
      | .error e => .error e
      | .ok rest => .ok (⟨k, resp.receipt_data⟩ :: rest)

/-- The fan-in of Parallel mode (lines 333-338): `for response in responses:
if response:` keeps only the non-`None` task values, turning each
`(source, response)` pair into an `ExpenseDataWithSource`. -/
def collectParallel
    (responses : List (Option (String × ExpenseExtractionResponse))) :
    List ExpenseDataWithSource :=
  responses.filterMap (fun r =>
    r.map (fun p => ⟨p.1, p.2.receipt_data⟩))

/-- Embeds `Client._get_files_from_s3_bucket` (lines 169-174): runs
`[obj['Key'] for obj in response['Contents']]` over the `list_objects_v2`
response.  When the response omits the `Contents` key — as it does for an
empty bucket — indexing `response['Contents']` raises `KeyError`. -/
def get_files_from_s3_bucket (env : Env) (s3_bucket_name : String) :
    Except PyError (List String) :=
  match env.s3ListObjects s3_bucket_name with
  | none => .error (.keyError "Contents")
  | some keys => .ok keys

/-- Embeds `Client.expense_image_batch_extract` (lines 286-353).
The reference list is enumerated eagerly (glob or bucket listing) before
any extraction and before the mode dispatch, so an enumeration error
(the `KeyError` of `_get_files_from_s3_bucket` on an empty bucket) aborts
the batch in both modes; Parallel mode submits one
`_expense_image_extract_parallel` task per reference and gathers with
`ray.get`; Sequential mode loops with `expense_image_extract`.
(`ray.init()` and the per-call timeouts are not observable here and are
not modelled.) -/
def expense_image_batch_extract (env : Env)
    (file_name_pattern s3_bucket_name : Option String)
    (batch_execution_mode : BatchExecutionMode) :
    Except PyError ExpenseExtractionBatchResponse :=
  if file_name_pattern.isNone && s3_bucket_name.isNone then
    .error (.valueError "file_name_pattern or s3_bucket_name is required.")
  else
    match (if truthyStr file_name_pattern then
             .ok (env.glob (file_name_pattern.getD ""))
           else get_files_from_s3_bucket env (s3_bucket_name.getD "")) with
    | .error e => .error e
    | .ok file_names =>
      match batch_execution_mode with
      | .Parallel =>
        let tasks :=
          if truthyStr file_name_pattern then
            file_names.map (fun f =>
              (expense_image_extract_parallel env (some f) none none).1)
          else
            file_names.map (fun k =>
              (expense_image_extract_parallel env none none
                (some ⟨s3_bucket_name.getD "", k⟩)).1)
        match rayGet tasks with
        | .error e => .error e
        | .ok responses => .ok ⟨collectParallel responses⟩
      | .Sequential =>
        match (if truthyStr file_name_pattern then
                 seqExtractFiles env file_names
               else seqExtractS3 env (s3_bucket_name.getD "") file_names) with
        | .error e => .error e
        | .ok l => .ok ⟨l⟩

/-! ## Canonical JSON form of the batch report

Modelled from the spec: the canonical JSON serialization of the §3 data
model ("both are serializable to a canonical JSON form matching the data
model in §3", §6).  The (de)serializer itself is pydantic library
behaviour (`model_dump_json` / `model_validate_json`), not repository
code; it is modelled here field by field from the declarations of
`src/underdoc/model.py`.  JSON numbers are modelled as exact rationals. -/

/-- A JSON value. -/
inductive Json where
  | null
  | str (s : String)
  | num (q : ℚ)
  | arr (elems : List Json)
  | obj (fields : List (String × Json))

/-- Serialize an optional string field (`None` ↦ `null`). -/
def encOptStr : Option String → Json
  | none => Json.null
  | some s => Json.str s

/-- Parse an optional string field. -/
def decOptStr : Json → Option (Option String)
  | Json.null => some none
  | Json.str s => some (some s)
  | _ => none

/-- Serialize an optional numeric field (`None` ↦ `null`). -/
def encOptNum : Option ℚ → Json
  | none => Json.null
  | some q => Json.num q

/-- Parse an optional numeric field. -/
def decOptNum : Json → Option (Option ℚ)
  | Json.null => some none
  | Json.num q => some (some q)
  | _ => none

/-- Serialize `ExpenseImageType` to its enum string value. -/
def encImageType : ExpenseImageType → Json
  | .Receipt => Json.str "Receipt"
  | .Invoice => Json.str "Invoice"
  | .Others => Json.str "Others"

/-- Parse an `ExpenseImageType` from its enum string value. -/
def decImageType : Json → Option ExpenseImageType
  | Json.str "Receipt" => some ExpenseImageType.Receipt
  | Json.str "Invoice" => some ExpenseImageType.Invoice
  | Json.str "Others" => some ExpenseImageType.Others
  | _ => none

/-- Serialize an `ExpenseItem` (fields of `model.py:ExpenseItem`). -/
def encExpenseItem (it : ExpenseItem) : Json :=
  Json.obj [("name", encOptStr it.name),
            ("quantity", encOptNum it.quantity),
            ("unit_price", encOptNum it.unit_price),
            ("subtotal", encOptNum it.subtotal)]

/-- Parse an `ExpenseItem` from its canonical object form. -/
def decExpenseItem : Json → Option ExpenseItem
  | Json.obj [("name", n), ("quantity", q), ("unit_price", u), ("subtotal", s)] =>
    match decOptStr n, decOptNum q, decOptNum u, decOptNum s with
    | some a, some b, some c, some d => some ⟨a, b, c, d⟩
    | _, _, _, _ => none
  | _ => none

/-- Parse a list of `ExpenseItem`s elementwise. -/
def decExpenseItemList : List Json → Option (List ExpenseItem)
  | [] => some []
  | j :: js =>
    match decExpenseItem j, decExpenseItemList js with
    | some x, some xs => some (x :: xs)
    | _, _ => none

/-- Serialize the optional `items` field of an `Expense`. -/
def encItemsField : Option (List ExpenseItem) → Json
  | none => Json.null
  | some l => Json.arr (l.map encExpenseItem)

/-- Parse the optional `items` field of an `Expense`. -/
def decItemsField : Json → Option (Option (List ExpenseItem))
  | Json.null => some none
  | Json.arr js => (decExpenseItemList js).map some
  | _ => none

/-- Serialize an `Expense` (fields of `model.py:Expense`). -/
def encExpense (e : Expense) : Json :=
  Json.obj [("shop_name", encOptStr e.shop_name),
            ("shop_address", encOptStr e.shop_address),
            ("date", encOptStr e.date),
            ("expense_category", encOptStr e.expense_category),
            ("currency", encOptStr e.currency),
            ("total_amount", encOptNum e.total_amount),
            ("items", encItemsField e.items)]

/-- Parse an `Expense` from its canonical object form. -/
def decExpense : Json → Option Expense
  | Json.obj [("shop_name", a), ("shop_address", b), ("date", c),
              ("expense_category", d), ("currency", e),
              ("total_amount", f), ("items", g)] =>
    match decOptStr a, decOptStr b, decOptStr c, decOptStr d,
          decOptStr e, decOptNum f, decItemsField g with
    | some v1, some v2, some v3, some v4, some v5, some v6, some v7 =>
      some ⟨v1, v2, v3, v4, v5, v6, v7⟩
    | _, _, _, _, _, _, _ => none
  | _ => none

/-- Serialize the optional `expense` field of an `ExpenseData`. -/
def encOptExpense : Option Expense → Json
  | none => Json.null
  | some e => encExpense e

/-- Parse the optional `expense` field of an `ExpenseData`. -/
def decOptExpense : Json → Option (Option Expense)
  | Json.null => some none
  | j => (decExpense j).map some

/-- Serialize an `ExpenseData` (fields of `model.py:ExpenseData`). -/
def encExpenseData (d : ExpenseData) : Json :=
  Json.obj [("image_type", encImageType d.image_type),
            ("expense", encOptExpense d.expense)]

/-- Parse an `ExpenseData` from its canonical object form. -/
def decExpenseData : Json → Option ExpenseData
  | Json.obj [("image_type", t), ("expense", e)] =>
    match decImageType t, decOptExpense e with
    | some v1, some v2 => some ⟨v1, v2⟩
    | _, _ => none
  | _ => none

/-- Serialize an `ExpenseDataWithSource` (fields of
`model.py:ExpenseDataWithSource`). -/
def encExpenseDataWithSource (d : ExpenseDataWithSource) : Json :=
  Json.obj [("source_file_name", Json.str d.source_file_name),
            ("expense_data", encExpenseData d.expense_data)]

/-- Parse an `ExpenseDataWithSource` from its canonical object form. -/
def decExpenseDataWithSource : Json → Option ExpenseDataWithSource
  | Json.obj [("source_file_name", Json.str s), ("expense_data", d)] =>
    (decExpenseData d).map (fun v => ⟨s, v⟩)
  | _ => none

/-- Parse a list of `ExpenseDataWithSource` elementwise. -/
def decExpenseDataWithSourceList :
    List Json → Option (List ExpenseDataWithSource)
  | [] => some []
  | j :: js =>
    match decExpenseDataWithSource j, decExpenseDataWithSourceList js with
    | some x, some xs => some (x :: xs)
    | _, _ => none

/-- Serialize an `ExpenseExtractionBatchResponse` — the `BatchReport` — to
its canonical JSON form. -/
def encBatchResponse (r : ExpenseExtractionBatchResponse) : Json :=
  Json.obj [("expense_data_list",
             Json.arr (r.expense_data_list.map encExpenseDataWithSource))]

/-- Parse an `ExpenseExtractionBatchResponse` back from its canonical JSON
form. -/
def decBatchResponse : Json → Option ExpenseExtractionBatchResponse
  | Json.obj [("expense_data_list", Json.arr js)] =>
    (decExpenseDataWithSourceList js).map (fun l => ⟨l⟩)
  | _ => none

/-! ## Derived characterizations and a concrete test environment -/

/-- Whether an embedded python call returned normally (no exception). -/
def exceptOk {ε α : Type} : Except ε α → Bool
  | .ok _ => true
  | .error _ => false

/-- The outcome the Sequential file loop records for one reference:
`some` outcome when `expense_image_extract` returns a response, `none`
when it returns python `None` (and unspecified when it raises). -/
def seqOutcome (env : Env) (f : String) : Option ExpenseDataWithSource :=
  match (expense_image_extract env (some f) none none).1 with
  | .ok (some resp) => some ⟨f, resp.receipt_data⟩
  | _ => none

/-- The outcome Parallel mode records for one file reference. -/
def parOutcome (env : Env) (f : String) : Option ExpenseDataWithSource :=
  match (expense_image_extract_parallel env (some f) none none).1 with
  | .ok (some p) => some ⟨p.1, p.2.receipt_data⟩
  | _ => none

/-- Whether the Parallel worker task for a file reference returns a
(non-`None`) value. -/
def parSucceeds (env : Env) (f : String) : Bool :=
  match (expense_image_extract_parallel env (some f) none none).1 with
  | .ok (some _) => true
  | _ => false

/-- A fixed extraction result used by the concrete test environment. -/
def demoData : ExpenseData := ⟨ExpenseImageType.Receipt, none⟩

/-- A concrete world for evaluating the client on explicit inputs:
five readable local files (`bad1.png` and `bad2.png` are unreadable),
a service that answers 500 `"boom"` for the bytes of `b.png`, answers 200
with a schema-violating body for the bytes of `d.png`, and 200 with a
conforming body otherwise; all URL fetches and S3 reads fail; two glob
patterns with matches; every S3 bucket is empty, so its `list_objects_v2`
response carries no `Contents` key. -/
def demoEnv : Env where
  readFile := fun f =>
    if f = "a.png" then some [0]
    else if f = "b.png" then some [1]
    else if f = "c.png" then some [2]
    else if f = "d.png" then some [3]
    else if f = "e.png" then some [4]
    else if f = "doc.pdf" then some [9]
    else none
  fetchUrl := fun _ => none
  s3Get := fun _ _ => none
  postExtract := fun req =>
    if req.image_data = [1] then ⟨500, "boom"⟩
    else if req.image_data = [4] then ⟨500, "boom2"⟩
    else if req.image_data = [3] then ⟨200, "badbody"⟩
    else ⟨200, "okbody"⟩
  validateBody := fun s => if s = "okbody" then some demoData else none
  glob := fun pat =>
    if pat = "*.png" then ["a.png", "b.png", "c.png", "e.png"]
    else if pat = "two/*.png" then ["a.png", "bad1.png", "bad2.png", "c.png"]
    else []
  s3ListObjects := fun _ => none

/-! ## Theorems -/

theorem lastExtension_no_dot (s : String) (h : '.' ∉ s.data) :
    lastExtension s = s := by
  unfold lastExtension
  have htw : s.data.reverse.takeWhile (fun c => c ≠ '.') = s.data.reverse := by
    apply List.takeWhile_eq_self_iff.mpr
    intro c hc
    simp only [ne_eq, decide_eq_true_eq]
    intro hcd
    exact h (hcd ▸ (List.mem_reverse.mp hc))
  rw [htw, List.reverse_reverse]

theorem takeWhile_append_of_all {l₁ l₂ : List Char} {p : Char → Bool}
    (h₁ : ∀ c ∈ l₁, p c = true) {x : Char} (hx : p x = false) :
    List.takeWhile p (l₁ ++ x :: l₂) = l₁ := by
  induction l₁ with
  | nil => simp [List.takeWhile, hx]
  | cons a as ih =>
    have ha : p a = true := h₁ a (List.mem_cons_self a as)
    simp only [List.cons_append, List.takeWhile_cons, ha, if_true]
    rw [ih (fun c hc => h₁ c (List.mem_cons_of_mem a hc))]

theorem lastExtension_append_dot (pre ext : String) (h : '.' ∉ ext.data) :
    lastExtension (pre ++ "." ++ ext) = ext := by
  unfold lastExtension
  have hdata : (pre ++ "." ++ ext).data = pre.data ++ '.' :: ext.data := by
    rw [String.data_append, String.data_append, List.append_assoc]
    rfl
  rw [hdata]
  rw [List.reverse_append]
  have hrc : ('.' :: ext.data).reverse = ext.data.reverse ++ ['.'] := by
    simp
  rw [hrc, List.append_assoc]
  have hall : ∀ c ∈ ext.data.reverse, (fun c => decide (c ≠ '.')) c = true := by
    intro c hc
    simp only [ne_eq, decide_eq_true_eq]
    intro hcd
    exact h (hcd ▸ (List.mem_reverse.mp hc))
  have hcons : ['.'] ++ pre.data.reverse = '.' :: pre.data.reverse := rfl
  rw [hcons, takeWhile_append_of_all hall (by simp), List.reverse_reverse]

theorem truthyStr_some_of_ne {s : String} (h : s ≠ "") :
    truthyStr (some s) = true := by
  simp only [truthyStr, Bool.not_eq_true']
  exact Bool.eq_false_iff.mpr (fun hc => h ((String.isEmpty_iff s).mp hc))

theorem isEmpty_false_of_ne {s : String} (h : s ≠ "") : s.isEmpty = false :=
  Bool.eq_false_iff.mpr (fun hc => h ((String.isEmpty_iff s).mp hc))

theorem seqExtractFiles_eq_filterMap (env : Env) (refs : List String)
    (hok : ∀ f ∈ refs,
      exceptOk (expense_image_extract env (some f) none none).1 = true) :
    seqExtractFiles env refs = .ok (refs.filterMap (seqOutcome env)) := by
  induction refs with
  | nil => rfl
  | cons f fs ih =>
    have hf := hok f (List.mem_cons_self f fs)
    have ihh := ih (fun g hg => hok g (List.mem_cons_of_mem f hg))
    cases hr : (expense_image_extract env (some f) none none).1 with
    | error e => rw [hr] at hf; simp [exceptOk] at hf
    | ok v =>
      cases v with
      | none =>
        simp only [seqExtractFiles, hr, List.filterMap_cons]
        have ho : seqOutcome env f = none := by simp [seqOutcome, hr]
        rw [ho, ihh]
      | some resp =>
        simp only [seqExtractFiles, hr, List.filterMap_cons]
        have ho : seqOutcome env f = some ⟨f, resp.receipt_data⟩ := by
          simp [seqOutcome, hr]
        rw [ho, ihh]

theorem rayGet_files_eq_filterMap (env : Env) (refs : List String)
    (hok : ∀ f ∈ refs,
      exceptOk (expense_image_extract_parallel env (some f) none none).1 = true) :
    ∃ rs,
      rayGet (refs.map (fun f =>
        (expense_image_extract_parallel env (some f) none none).1)) = .ok rs ∧
      collectParallel rs = refs.filterMap (parOutcome env) := by
  induction refs with
  | nil => exact ⟨[], rfl, rfl⟩
  | cons f fs ih =>
    obtain ⟨rs, h1, h2⟩ := ih (fun g hg => hok g (List.mem_cons_of_mem f hg))
    have hf := hok f (List.mem_cons_self f fs)
    cases hr : (expense_image_extract_parallel env (some f) none none).1 with
    | error e => rw [hr] at hf; simp [exceptOk] at hf
    | ok v =>
      refine ⟨v :: rs, ?_, ?_⟩
      · simp only [List.map_cons, rayGet, hr, h1]
      · cases v with
        | none =>
          have ho : parOutcome env f = none := by simp [parOutcome, hr]
          simp only [collectParallel, List.filterMap_cons, Option.map_none', ho]
          exact h2
        | some p =>
          have ho : parOutcome env f = some ⟨p.1, p.2.receipt_data⟩ := by
            simp [parOutcome, hr]
          simp only [collectParallel, List.filterMap_cons, Option.map_some', ho]
          rw [← h2]
          rfl

theorem parallel_source_eq (env : Env) (f : String)
    (p : String × ExpenseExtractionResponse)
    (h : (expense_image_extract_parallel env (some f) none none).1
      = .ok (some p)) :
    p.1 = f := by
  obtain ⟨ps, pr⟩ := p
  by_cases hf : f = ""
  · subst hf
    have hb : buildRequest env (some "") none none
        = .error (.nameError "name 'request' is not defined") := rfl
    simp [expense_image_extract_parallel, hb] at h
  · have ht : truthyStr (some f) = true := truthyStr_some_of_ne hf
    cases hg : get_request_from_file_name env f with
    | mk req? tr =>
      cases req? with
      | none =>
        simp [expense_image_extract_parallel, buildRequest, ht, hg] at h
      | some req =>
        cases hp : postAndParse env req with
        | error e =>
          simp [expense_image_extract_parallel, buildRequest, ht, hg, hp] at h
        | ok resp =>
          simp [expense_image_extract_parallel, buildRequest, ht, hg, hp] at h
          exact h.1.symm

theorem filterMap_parOutcome_sources (env : Env) (refs : List String)
    (hok : ∀ f ∈ refs,
      exceptOk (expense_image_extract_parallel env (some f) none none).1 = true) :
    (refs.filterMap (parOutcome env)).map (fun d => d.source_file_name)
      = refs.filter (fun f => parSucceeds env f) := by
  induction refs with
  | nil => rfl
  | cons f fs ih =>
    have hf := hok f (List.mem_cons_self f fs)
    have ihh := ih (fun g hg => hok g (List.mem_cons_of_mem f hg))
    cases hr : (expense_image_extract_parallel env (some f) none none).1 with
    | error e => rw [hr] at hf; simp [exceptOk] at hf
    | ok v =>
      cases v with
      | none =>
        have ho : parOutcome env f = none := by simp [parOutcome, hr]
        have hs : parSucceeds env f = false := by simp [parSucceeds, hr]
        simp only [List.filterMap_cons, ho, List.filter_cons, hs,
          Bool.false_eq_true, if_false]
        exact ihh
      | some p =>
        have hps : p.1 = f := parallel_source_eq env f p hr
        have ho : parOutcome env f = some ⟨p.1, p.2.receipt_data⟩ := by
          simp [parOutcome, hr]
        have hs : parSucceeds env f = true := by simp [parSucceeds, hr]
        simp only [List.filterMap_cons, ho, List.filter_cons, hs, if_true,
          List.map_cons]
        rw [ihh, hps]

theorem decOptStr_encOptStr (a : Option String) :
    decOptStr (encOptStr a) = some a := by
  cases a <;> rfl

theorem decOptNum_encOptNum (a : Option ℚ) :
    decOptNum (encOptNum a) = some a := by
  cases a <;> rfl

theorem decImageType_encImageType (t : ExpenseImageType) :
    decImageType (encImageType t) = some t := by
  cases t <;> rfl

theorem decExpenseItem_encExpenseItem (it : ExpenseItem) :
    decExpenseItem (encExpenseItem it) = some it := by
  obtain ⟨a, b, c, d⟩ := it
  cases a <;> cases b <;> cases c <;> cases d <;> rfl

theorem decExpenseItemList_enc (l : List ExpenseItem) :
    decExpenseItemList (l.map encExpenseItem) = some l := by
  induction l with
  | nil => rfl
  | cons x xs ih =>
    simp only [List.map_cons, decExpenseItemList,
      decExpenseItem_encExpenseItem, ih]

theorem decItemsField_encItemsField (o : Option (List ExpenseItem)) :
    decItemsField (encItemsField o) = some o := by
  cases o with
  | none => rfl
  | some l =>
    simp only [encItemsField, decItemsField, decExpenseItemList_enc,
      Option.map_some']

theorem decExpense_encExpense (e : Expense) :
    decExpense (encExpense e) = some e := by
  obtain ⟨a, b, c, d, e5, f, g⟩ := e
  simp only [encExpense, decExpense, decOptStr_encOptStr, decOptNum_encOptNum,
    decItemsField_encItemsField]

theorem decOptExpense_encOptExpense (o : Option Expense) :
    decOptExpense (encOptExpense o) = some o := by
  cases o with
  | none => rfl
  | some e =>
    have h1 : decOptExpense (encOptExpense (some e))
        = (decExpense (encExpense e)).map some := rfl
    rw [h1, decExpense_encExpense]
    rfl

theorem decExpenseData_encExpenseData (d : ExpenseData) :
    decExpenseData (encExpenseData d) = some d := by
  obtain ⟨t, e⟩ := d
  simp only [encExpenseData, decExpenseData, decImageType_encImageType,
    decOptExpense_encOptExpense]

theorem decExpenseDataWithSource_enc (d : ExpenseDataWithSource) :
    decExpenseDataWithSource (encExpenseDataWithSource d) = some d := by
  obtain ⟨s, dd⟩ := d
  simp only [encExpenseDataWithSource, decExpenseDataWithSource,
    decExpenseData_encExpenseData, Option.map_some']

theorem decExpenseDataWithSourceList_enc (l : List ExpenseDataWithSource) :
    decExpenseDataWithSourceList (l.map encExpenseDataWithSource) = some l := by
  induction l with
  | nil => rfl
  | cons x xs ih =>
    simp only [List.map_cons, decExpenseDataWithSourceList,
      decExpenseDataWithSource_enc, ih]

/-! ## Claim theorems -/

/-- C1 (counterexample): the claim that a Sequential batch continues past
every failing item is false.  Over `demoEnv`, the pattern `*.png` matches
four references of which exactly the items at positions 1 and 3 fail — but
they fail with a non-200 service response, so `expense_image_extract`
raises `UnderDocException` at position 1 and the whole batch call raises
instead of returning a report of N-2 = 2 outcomes. -/
theorem C1_counterexample :
    expense_image_batch_extract demoEnv (some "*.png") none
      BatchExecutionMode.Sequential
      = Except.error (PyError.underDoc "boom") := rfl

/-- C1 (amended): in Sequential batch mode the batch continues past an item
only when the item's failure is a resolution failure (its request could not
be built and `expense_image_extract` returns `None`); provided no item
raises, the report holds exactly the outcomes of the surviving inputs, in
the same relative order as the inputs (`List.filterMap` of the per-item
outcome). -/
theorem C1_sequential_skips_none_failures (env : Env) (pat : String)
    (refs : List String) (hpat : pat ≠ "") (hglob : env.glob pat = refs)
    (hok : ∀ f ∈ refs,
      exceptOk (expense_image_extract env (some f) none none).1 = true) :
    expense_image_batch_extract env (some pat) none
      BatchExecutionMode.Sequential
      = Except.ok ⟨refs.filterMap (seqOutcome env)⟩ := by
  have ht : truthyStr (some pat) = true := truthyStr_some_of_ne hpat
  simp only [expense_image_batch_extract, Option.isNone_some, Option.isNone_none,
    Bool.false_and, Bool.false_eq_true, if_false, ht, if_true,
    Option.getD_some, hglob, seqExtractFiles_eq_filterMap env refs hok]

/-- C1 (witness): over `demoEnv` the pattern `two/*.png` matches four
references of which the two middle ones fail by resolution; the Sequential
report holds the two surviving outcomes in input order. -/
theorem C1_witness :
    expense_image_batch_extract demoEnv (some "two/*.png") none
      BatchExecutionMode.Sequential
      = Except.ok ⟨[⟨"a.png", demoData⟩, ⟨"c.png", demoData⟩]⟩ := by
  have h := C1_sequential_skips_none_failures demoEnv "two/*.png"
    ["a.png", "bad1.png", "bad2.png", "c.png"] (by decide) rfl (by decide)
  rw [h]
  rfl

/-- C2 (counterexample): the claim that Parallel mode catches each failed
task's exception per-task and never raises is false.  Over `demoEnv` with
pattern `*.png` (four tasks, two of which raise `UnderDocException`),
`ray.get` re-raises the first task exception and the batch call itself
raises. -/
theorem C2_counterexample :
    expense_image_batch_extract demoEnv (some "*.png") none
      BatchExecutionMode.Parallel
      = Except.error (PyError.underDoc "boom") := rfl

/-- C2 (amended): in Parallel batch mode a task contributes nothing to the
report only when it fails by resolution (the worker returns `None`); task
exceptions are not caught per-task — they propagate through `ray.get` and
abort the batch.  Provided no task raises, the report holds exactly the
outcomes of the succeeding inputs (in submission order) and its list of
source references equals the succeeding inputs. -/
theorem C2_parallel_drops_none_failures (env : Env) (pat : String)
    (refs : List String) (hpat : pat ≠ "") (hglob : env.glob pat = refs)
    (hok : ∀ f ∈ refs,
      exceptOk (expense_image_extract_parallel env (some f) none none).1
        = true) :
    expense_image_batch_extract env (some pat) none BatchExecutionMode.Parallel
      = Except.ok ⟨refs.filterMap (parOutcome env)⟩ ∧
    (refs.filterMap (parOutcome env)).map (fun d => d.source_file_name)
      = refs.filter (fun f => parSucceeds env f) := by
  refine ⟨?_, filterMap_parOutcome_sources env refs hok⟩
  obtain ⟨rs, h1, h2⟩ := rayGet_files_eq_filterMap env refs hok
  have ht : truthyStr (some pat) = true := truthyStr_some_of_ne hpat
  simp only [expense_image_batch_extract, Option.isNone_some, Option.isNone_none,
    Bool.false_and, Bool.false_eq_true, if_false, ht, if_true,
    Option.getD_some, hglob, h1, h2]

/-- C2 (witness): over `demoEnv` the pattern `two/*.png` matches four
references of which the two middle ones fail by resolution; the Parallel
report holds the two surviving outcomes. -/
theorem C2_witness :
    expense_image_batch_extract demoEnv (some "two/*.png") none
      BatchExecutionMode.Parallel
      = Except.ok ⟨[⟨"a.png", demoData⟩, ⟨"c.png", demoData⟩]⟩ := by
  have h := (C2_parallel_drops_none_failures demoEnv "two/*.png"
    ["a.png", "bad1.png", "bad2.png", "c.png"] (by decide) rfl (by decide)).1
  rw [h]
  rfl

/-- C3 (code divergence): the claim — and the docstrings of
`_get_request_from_file_name` / `_get_request_from_image_url`, which
promise raised `FileNotFoundError` / `IOError` / HTTP errors — say a
failing resolution raises; the code instead catches every exception in the
request builders and `expense_image_extract` returns python `None`.
Evaluated here for all three reference kinds over `demoEnv`: an unreadable
local file, a failing URL fetch, and a failing object-store read each make
the call return `None` (no exception). -/
theorem C3_resolution_failure_returns_none :
    expense_image_extract demoEnv (some "missing.jpg") none none
      = (Except.ok none, [Effect.openFile "missing.jpg"]) ∧
    expense_image_extract demoEnv none (some "http://x/img.png") none
      = (Except.ok none, [Effect.httpGet "http://x/img.png"]) ∧
    expense_image_extract demoEnv none none (some ⟨"bkt", "k.png"⟩)
      = (Except.ok none, [Effect.s3GetObject "bkt" "k.png"]) :=
  ⟨rfl, rfl, rfl⟩

/-- C4 (counterexample): the claim that an unsupported extension fails with
`UnsupportedFormat` before any I/O is false for local paths: for the
readable local file `doc.pdf` the file is opened (I/O happens) before the
format check, and no error is raised at all — the call returns `None`. -/
theorem C4_counterexample :
    expense_image_extract demoEnv (some "doc.pdf") none none
      = (Except.ok none, [Effect.openFile "doc.pdf"]) := rfl

/-- C4 (amended): for every reference whose extension is not recognized,
single-item extraction issues no call to the extraction service and raises
no error, returning `None` instead; for URL and object-store references the
format check precedes the fetch (no I/O at all), while for local paths the
file open is attempted before the format check. -/
theorem C4_unsupported_extension_no_service_call (env : Env) :
    (∀ f : String, f ≠ "" → exceptOk (get_image_format f) = false →
      expense_image_extract env (some f) none none
        = (Except.ok none, [Effect.openFile f])) ∧
    (∀ u : String, u ≠ "" → exceptOk (get_image_format u) = false →
      expense_image_extract env none (some u) none = (Except.ok none, [])) ∧
    (∀ o : S3Object, exceptOk (get_image_format o.object_key) = false →
      expense_image_extract env none none (some o) = (Except.ok none, [])) := by
  refine ⟨?_, ?_, ?_⟩
  · intro f hf hbad
    have ht : truthyStr (some f) = true := truthyStr_some_of_ne hf
    cases hfmt : get_image_format f with
    | ok v => rw [hfmt] at hbad; simp [exceptOk] at hbad
    | error msg =>
      cases hread : env.readFile f with
      | none =>
        simp [expense_image_extract, buildRequest, ht,
          get_request_from_file_name, hread]
      | some bytes =>
        simp [expense_image_extract, buildRequest, ht,
          get_request_from_file_name, hread, hfmt]
  · intro u hu hbad
    have ht : truthyStr (some u) = true := truthyStr_some_of_ne hu
    cases hfmt : get_image_format u with
    | ok v => rw [hfmt] at hbad; simp [exceptOk] at hbad
    | error msg =>
      simp [expense_image_extract, buildRequest, ht,
        get_request_from_image_url, hfmt, truthyStr, isEmpty_false_of_ne hu]
  · intro o hbad
    cases hfmt : get_image_format o.object_key with
    | ok v => rw [hfmt] at hbad; simp [exceptOk] at hbad
    | error msg =>
      simp [expense_image_extract, buildRequest,
        get_request_from_s3_object, hfmt, truthyStr]

/-- C4 (witness): concrete unsupported extensions for all three reference
kinds over `demoEnv`. -/
theorem C4_witness :
    expense_image_extract demoEnv (some "doc.pdf") none none
      = (Except.ok none, [Effect.openFile "doc.pdf"]) ∧
    expense_image_extract demoEnv none (some "http://x/a.gif") none
      = (Except.ok none, []) ∧
    expense_image_extract demoEnv none none (some ⟨"bkt", "k.webp"⟩)
      = (Except.ok none, []) := by
  obtain ⟨h1, h2, h3⟩ := C4_unsupported_extension_no_service_call demoEnv
  exact ⟨h1 "doc.pdf" (by decide) (by decide),
         h2 "http://x/a.gif" (by decide) (by decide),
         h3 ⟨"bkt", "k.webp"⟩ (by decide)⟩

/-- C5 (counterexample): the claim that a suffix of `jpg` in any letter
case yields the jpeg format is false: the comparison in
`_get_image_format` is case-sensitive, so the suffix `JPG` is rejected
with a `ValueError`. -/
theorem C5_counterexample :
    get_image_format "receipt.JPG"
      = Except.error "Unsupported file format: JPG" := rfl

/-- C5 (amended): format inference takes the suffix after the last `.` of
the reference and compares it case-sensitively: exactly `jpg`/`jpeg` give
jpeg and exactly `png` gives png; every other suffix — uppercase variants
included — is rejected with a `ValueError` naming the suffix. -/
theorem C5_format_from_exact_suffix (pre ext : String) (h : '.' ∉ ext.data) :
    get_image_format (pre ++ "." ++ ext)
      = if ext = "jpg" ∨ ext = "jpeg" then Except.ok ImageFormat.jpeg
        else if ext = "png" then Except.ok ImageFormat.png
        else Except.error ("Unsupported file format: " ++ ext) := by
  simp only [get_image_format, lastExtension_append_dot pre ext h]

/-- C5 (witness): the exact lowercase suffix `jpg` is mapped to jpeg. -/
theorem C5_witness :
    get_image_format "receipt.jpg" = Except.ok ImageFormat.jpeg := by
  have h := C5_format_from_exact_suffix "receipt" "jpg" (by decide)
  rw [if_pos (Or.inl rfl)] at h
  exact h

/-- C6 (counterexample): the claim that a 200 response with a
schema-nonconforming body fails with the same typed error class as a
non-200 response (`ServiceFailure`, i.e. `UnderDocException`) is false:
`model_validate_json` raises a pydantic `ValidationError`, a different
class.  Over `demoEnv`, `d.png` produces a 200 response with body
`badbody`, and the call raises the validation error, not
`UnderDocException`. -/
theorem C6_counterexample :
    expense_image_extract demoEnv (some "d.png") none none
      = (Except.error (PyError.validation "badbody"),
         [Effect.openFile "d.png", Effect.postExtract]) := rfl

/-- C6 (amended): once a request is built, a non-200 service response makes
single-item extraction raise `UnderDocException` carrying the raw response
body text, while a 200 response whose body does not conform to the schema
makes it raise a pydantic `ValidationError` — a different error class. -/
theorem C6_service_failure_errors (env : Env) (f : String)
    (req : ExpenseExtractionRequest) (tr : List Effect) (hf : f ≠ "")
    (hreq : get_request_from_file_name env f = (some req, tr)) :
    ((env.postExtract req).status_code ≠ 200 →
      expense_image_extract env (some f) none none
        = (Except.error (PyError.underDoc (env.postExtract req).text),
           tr ++ [Effect.postExtract])) ∧
    ((env.postExtract req).status_code = 200 →
      env.validateBody (env.postExtract req).text = none →
      expense_image_extract env (some f) none none
        = (Except.error (PyError.validation (env.postExtract req).text),
           tr ++ [Effect.postExtract])) := by
  have ht : truthyStr (some f) = true := truthyStr_some_of_ne hf
  constructor
  · intro hst
    simp [expense_image_extract, buildRequest, ht, hreq, postAndParse, hst]
  · intro hst hval
    simp [expense_image_extract, buildRequest, ht, hreq, postAndParse, hst,
      hval]

/-- C6 (witness): over `demoEnv`, `b.png` gets a 500 response with body
`boom` (an `UnderDocException`), and `d.png` gets a 200 response with the
nonconforming body `badbody` (a pydantic `ValidationError`). -/
theorem C6_witness :
    expense_image_extract demoEnv (some "b.png") none none
      = (Except.error (PyError.underDoc "boom"),
         [Effect.openFile "b.png", Effect.postExtract]) ∧
    expense_image_extract demoEnv (some "d.png") none none
      = (Except.error (PyError.validation "badbody"),
         [Effect.openFile "d.png", Effect.postExtract]) := by
  have h1 := (C6_service_failure_errors demoEnv "b.png"
    ⟨ImageFormat.png, [1]⟩ [Effect.openFile "b.png"] (by decide) rfl).1
    (by decide)
  have h2 := (C6_service_failure_errors demoEnv "d.png"
    ⟨ImageFormat.png, [3]⟩ [Effect.openFile "d.png"] (by decide) rfl).2
    rfl rfl
  exact ⟨h1, h2⟩

/-- C7 (counterexample): the claim that an empty bucket listing yields an
empty report without an error is false.  Over `demoEnv`, bucket `b` is
empty, so the `list_objects_v2` response omits the `Contents` key and
`_get_files_from_s3_bucket` raises `KeyError` when indexing
`response['Contents']`; the batch call raises in both modes instead of
returning the empty report. -/
theorem C7_counterexample :
    expense_image_batch_extract demoEnv none (some "b")
      BatchExecutionMode.Sequential
      = Except.error (PyError.keyError "Contents") ∧
    expense_image_batch_extract demoEnv none (some "b")
      BatchExecutionMode.Parallel
      = Except.error (PyError.keyError "Contents") :=
  ⟨rfl, rfl⟩

/-- C7 (amended): for an input whose enumeration is an empty glob match,
`expense_image_batch_extract` returns an empty report and does not raise,
in both Sequential and Parallel modes; but for an empty bucket the
enumeration itself raises — `list_objects_v2` omits the `Contents` key and
`_get_files_from_s3_bucket` raises `KeyError` indexing it — so the batch
call raises in both modes and never reaches the empty-report case. -/
theorem C7_empty_glob_ok_empty_bucket_raises (env : Env)
    (mode : BatchExecutionMode) (pat bucket : String) (hpat : pat ≠ "")
    (hg : env.glob pat = []) (hb : env.s3ListObjects bucket = none) :
    expense_image_batch_extract env (some pat) none mode
      = Except.ok ⟨[]⟩ ∧
    expense_image_batch_extract env none (some bucket) mode
      = Except.error (PyError.keyError "Contents") := by
  have ht : truthyStr (some pat) = true := truthyStr_some_of_ne hpat
  constructor
  · cases mode <;>
      simp [expense_image_batch_extract, ht, hg, rayGet, collectParallel,
        seqExtractFiles]
  · cases mode <;>
      simp [expense_image_batch_extract, truthyStr,
        get_files_from_s3_bucket, hb]

/-- C7 (witness): over `demoEnv`, the pattern `none/*` matches nothing and
the glob batch returns the empty report, while bucket `b` is empty and the
bucket batch raises `KeyError`. -/
theorem C7_witness :
    expense_image_batch_extract demoEnv (some "none/*") none
      BatchExecutionMode.Sequential = Except.ok ⟨[]⟩ ∧
    expense_image_batch_extract demoEnv none (some "b")
      BatchExecutionMode.Sequential
      = Except.error (PyError.keyError "Contents") :=
  C7_empty_glob_ok_empty_bucket_raises demoEnv BatchExecutionMode.Sequential
    "none/*" "b" (by decide) rfl rfl

/-- C8: round-trip — serializing any `BatchReport`
(`ExpenseExtractionBatchResponse`) to its canonical JSON form and parsing
that JSON back yields a structure equal to the original. -/
theorem C8_batch_report_roundtrip (r : ExpenseExtractionBatchResponse) :
    decBatchResponse (encBatchResponse r) = some r := by
  obtain ⟨l⟩ := r
  simp only [encBatchResponse, decBatchResponse,
    decExpenseDataWithSourceList_enc, Option.map_some']

/-- C9: a reference string with no `.` is treated as being all extension:
a bare `jpg`/`jpeg` is accepted as jpeg and a bare `png` as png, while any
other dotless string is rejected. -/
theorem C9_dotless_string_is_extension (s : String) (h : '.' ∉ s.data) :
    get_image_format s
      = if s = "jpg" ∨ s = "jpeg" then Except.ok ImageFormat.jpeg
        else if s = "png" then Except.ok ImageFormat.png
        else Except.error ("Unsupported file format: " ++ s) := by
  simp only [get_image_format, lastExtension_no_dot s h]

/-- C9 (witness): the bare name `jpeg` is accepted as the jpeg format. -/
theorem C9_witness : get_image_format "jpeg" = Except.ok ImageFormat.jpeg := by
  have h := C9_dotless_string_is_extension "jpeg" (by decide)
  rw [if_pos (Or.inr rfl)] at h
  exact h

/-- C10: passing more than one of `file_name`, `image_url`, `s3_object`
raises no error; the sources are consulted in the fixed truthiness
precedence `file_name` over `image_url` over `s3_object`, and the call
behaves exactly as if only the highest-precedence truthy source had been
passed. -/
theorem C10_source_precedence (env : Env) :
    (∀ (f : String) (u : Option String) (o : Option S3Object), f ≠ "" →
      expense_image_extract env (some f) u o
        = expense_image_extract env (some f) none none) ∧
    (∀ (f : Option String) (u : String) (o : Option S3Object),
      truthyStr f = false → u ≠ "" →
      expense_image_extract env f (some u) o
        = expense_image_extract env none (some u) none) ∧
    (∀ (f u : Option String) (o : S3Object),
      truthyStr f = false → truthyStr u = false →
      expense_image_extract env f u (some o)
        = expense_image_extract env none none (some o)) := by
  refine ⟨?_, ?_, ?_⟩
  · intro f u o hf
    have ht : truthyStr (some f) = true := truthyStr_some_of_ne hf
    simp [expense_image_extract, buildRequest, ht]
  · intro f u o hf hu
    have hue : u.isEmpty = false := isEmpty_false_of_ne hu
    cases f with
    | none => simp [expense_image_extract, buildRequest, truthyStr, hue]
    | some fs =>
      have hfe : fs.isEmpty = true := by simpa [truthyStr] using hf
      simp [expense_image_extract, buildRequest, truthyStr, hue, hfe]
  · intro f u o hf hu
    cases f <;> cases u <;>
      simp_all [expense_image_extract, buildRequest, truthyStr]

/-- C10 (witness): with all three sources passed, the call equals the
file-only call. -/
theorem C10_witness :
    expense_image_extract demoEnv (some "a.png") (some "http://x/img.png")
        (some ⟨"bkt", "k.png"⟩)
      = expense_image_extract demoEnv (some "a.png") none none :=
  (C10_source_precedence demoEnv).1 "a.png" (some "http://x/img.png")
    (some ⟨"bkt", "k.png"⟩) (by decide)

end UnderDoc
